import Mathlib

/-!
Shallow embedding of the per-client request lifecycle engine of
`ext/common/agents/HelperAgent/RequestHandler.h` (Phusion Passenger helper
agent), together with theorems checking the natural-language specification
against it.  Byte strings are modelled as `List Char` (the source operates on
raw byte buffers; all constants involved are ASCII), and the SCGI header map
as an association list.
-/

set_option maxRecDepth 4000


/-- Byte strings from the C++ side are modelled as lists of characters. -/
abbrev Chars := List Char

/-- Turns a Lean string literal into the byte-list representation. -/
def chars (s : String) : Chars := s.data

/-- Carriage return / line feed pair terminating each response header line. -/
def crlf : Chars := ['\r', '\n']

/- ***** SCGI header map (ScgiRequestParser::HeaderMap, a std::map) ***** -/
/-- Association-list model of the parsed SCGI header map. -/
abbrev HdrMap := List (Chars × Chars)

/-- The C++ `map.find(k)` — first binding of `k` (std::map holds at most one). -/
def mapFind : HdrMap → Chars → Option Chars
  | [], _ => none
  | (k', v) :: rest, k => if k' = k then some v else mapFind rest k

/-- The C++ `map.erase(k)` — removes the binding of `k`. -/
def mapErase : HdrMap → Chars → HdrMap
  | [], _ => []
  | (k', v) :: rest, k =>
    if k' = k then mapErase rest k else (k', v) :: mapErase rest k

/-- The C++ `map[k] = v` — insert-or-assign. -/
def mapSet : HdrMap → Chars → Chars → HdrMap
  | [], k, v => [(k, v)]
  | (k', v') :: rest, k, v =>
    if k' = k then (k', v) :: rest else (k', v') :: mapSet rest k v

def httpContentLength : Chars := chars (r"HTTP_CONTENT_LENGTH")

def contentLength : Chars := chars (r"CONTENT_LENGTH")

def httpContentType : Chars := chars (r"HTTP_CONTENT_TYPE")

def contentType : Chars := chars (r"CONTENT_TYPE")

def trueChars : Chars := chars (r"true")

/- ***** RequestHandler::getBoolOption / fillPoolOption ***** -/
/-- The C++ `RequestHandler::getBoolOption`: if the header is present the option is the
comparison of its value with the exact string `true`, otherwise the supplied
default. -/
def getBoolOption (hdrs : HdrMap) (name : Chars) (defaultValue : Bool := false) : Bool :=
  match mapFind hdrs name with
  | some v => v = trueChars
  | none => defaultValue

/-- The C++ `RequestHandler::fillPoolOption` (bool overload): overwrites `field` with
`value == "true"` only when the header is present. -/
def fillPoolOption (hdrs : HdrMap) (field : Bool) (name : Chars) : Bool :=
  match mapFind hdrs name with
  | some v => v = trueChars
  | none => field

/- ***** RequestHandler::modifyClientHeaders ***** -/
/-- One of the two identical rewrites inside
`RequestHandler::modifyClientHeaders`: if `src` exists then either move its
value to `dst` (when `dst` is absent) or drop `src`, reporting that the map was
modified. -/
def moveHeaderStep (m : HdrMap) (src dst : Chars) : HdrMap × Bool :=
  match mapFind m src with
  | some v =>
    if mapFind m dst = none then
      (mapErase (mapSet m dst v) src, true)
    else
      (mapErase m src, true)
  | none => (m, false)

/-- The C++ `RequestHandler::modifyClientHeaders`: applies the rewrite first to
`HTTP_CONTENT_LENGTH`/`CONTENT_LENGTH`, then to
`HTTP_CONTENT_TYPE`/`CONTENT_TYPE`, returning the new map and whether any
modification occurred. -/
def modifyClientHeaders (m : HdrMap) : HdrMap × Bool :=
  let s1 := moveHeaderStep m httpContentLength contentLength
  let s2 := moveHeaderStep s1.1 httpContentType contentType
  (s2.1, s1.2 || s2.2)

/-- Modelled from the spec: `ScgiRequestParser::rebuildData` (the parser lives
outside the included sources).  The serialized header data is replaced by the
null-separated serialization of the map exactly when the flag passed by
`state_readingHeader_onClientData` is true. -/
def rebuildData (flag : Bool) (m : HdrMap) (orig : Chars) : Chars :=
  if flag then m.foldr (fun p acc => p.1 ++ ['\x00'] ++ p.2 ++ ['\x00'] ++ acc) [] else orig

/- ***** C10: boolean request options ***** -/
def passengerBuffering : Chars := chars (r"PASSENGER_BUFFERING")

def passengerFriendlyErrorPages : Chars := chars (r"PASSENGER_FRIENDLY_ERROR_PAGES")

def passengerPrintStatusLine : Chars := chars (r"PASSENGER_PRINT_STATUS_LINE")

def passengerLoadShellEnvvars : Chars := chars (r"PASSENGER_LOAD_SHELL_ENVVARS")

/- ***** C8: RequestHandler::initiateSession retry behaviour ***** -/
/-- Pool options relevant to session checkout; opaque payload copied from the
request headers by `checkoutSession` and passed unchanged on retries. -/
structure PoolOptions where
  appRoot : Chars
  appType : Chars
  spawnMethod : Chars
  startCommand : Chars
  loadShellEnvvars : Bool
deriving DecidableEq

/-- Behaviour of `session->initiate()` on one attempt: it either succeeds or
throws a `SystemException` (the only exception type the code catches). -/
inductive InitiateBehaviour where
  | succeeds
  | throwsSystem
deriving DecidableEq

/-- Result of one `RequestHandler::initiateSession` call. -/
inductive CheckoutStep where
  /-- The C++ `pool->asyncGet` is re-invoked with `client->options` and the new value
  of `sessionCheckoutTry`. -/
  | retried (opts : PoolOptions) (sessionCheckoutTry : Nat)
  /-- The C++ `disconnectWithError(client, "could not initiate a session")`. -/
  | disconnected (msg : Chars)
  /-- Session initiated; control proceeds to `sendHeaderToApp`. -/
  | proceeded (sessionCheckoutTry : Nat)
deriving DecidableEq

def couldNotInitiateMsg : Chars := chars (r"could not initiate a session")

/-- The C++ `RequestHandler::initiateSession`: increments `sessionCheckoutTry`, then
tries `session->initiate()`; a `SystemException` leads to a retry with the same
options while the incremented counter is below 10, and to disconnection
otherwise. -/
def initiateSession (opts : PoolOptions) (sessionCheckoutTry : Nat)
    (beh : InitiateBehaviour) : CheckoutStep :=
  let t := sessionCheckoutTry + 1
  match beh with
  | .succeeds => .proceeded t
  | .throwsSystem =>
    if t < 10 then .retried opts t else .disconnected couldNotInitiateMsg

/- ***** C3: RequestHandler::sendHeaderToApp dispatch frame ***** -/
/-- Raw bytes of the worker dispatch frame. -/
abbrev Bytes := List Nat

/-- Modelled from the spec: `Uint32Message::generate` (MessageReadersWriters.h
is outside the included sources) writes a 32-bit big-endian length prefix. -/
def uint32BE (n : Nat) : Bytes :=
  [n / 2 ^ 24 % 256, n / 2 ^ 16 % 256, n / 2 ^ 8 % 256, n % 256]

/-- Big-endian decoding of a 4-byte prefix. -/
def decodeBE32 : Bytes → Nat
  | [b0, b1, b2, b3] => b0 * 2 ^ 24 + b1 * 2 ^ 16 + b2 * 2 ^ 8 + b3
  | _ => 0

/-- The C++ `RequestHandler::makeStaticStringWithNull`: the string content followed by
its terminating null byte. -/
def makeStaticStringWithNull (data : Bytes) : Bytes := data ++ [0]

/-- The bytes of the literal `PASSENGER_CONNECT_PASSWORD`. -/
def passengerConnectPasswordBytes : Bytes :=
  (chars (r"PASSENGER_CONNECT_PASSWORD")).map Char.toNat

/-- The C++ `RequestHandler::sendHeaderToApp` frame construction: four gathered
segments — the 4-byte size field, the (possibly rebuilt) SCGI header data, the
null-terminated literal `PASSENGER_CONNECT_PASSWORD` and the null-terminated
session connect password — where the size field holds the `uint32` sum of the
sizes of the last three segments.  `gatheredWrite` (IOUtils, outside the
included sources) writes the segments back to back, modelled from the spec. -/
def sendHeaderToAppFrame (headerData connectPassword : Bytes) : Bytes :=
  let seg1 := headerData
  let seg2 := makeStaticStringWithNull passengerConnectPasswordBytes
  let seg3 := makeStaticStringWithNull connectPassword
  let dataSize :=
    ((0 + seg1.length % 2 ^ 32) % 2 ^ 32 + seg2.length % 2 ^ 32) % 2 ^ 32
      + seg3.length % 2 ^ 32
  let sizeField := uint32BE (dataSize % 2 ^ 32)
  sizeField ++ seg1 ++ seg2 ++ seg3

/-- The phases a client can be in while the connect password is processed
(`READING_HEADER` and `DISCONNECTED` are where it leaves this sub-machine). -/
inductive PwPhase where
  | beginReading
  | stillReading
  | readingHeader
  | disconnected
deriving DecidableEq

/-- The client fields touched by the two connect-password states:
`bufferedConnectPassword` (the buffer plus `alreadyRead`, represented as the
list of buffered bytes), the timeout timer, and an instrumentation counter of
full password comparisons performed by `checkConnectPassword`. -/
structure PwClient where
  phase : PwPhase
  buffered : Chars
  timerStopped : Bool
  comparisons : Nat
deriving DecidableEq

def pwInit : PwClient := ⟨.beginReading, [], false, 0⟩

/-- The C++ `RequestHandler::checkConnectPassword`: one full byte-for-byte comparison
with the configured password; match moves to `READING_HEADER`, frees the
buffer and stops the timeout timer; mismatch disconnects with an error. -/
def checkConnectPassword (pw : Chars) (c : PwClient) (data : Chars) : PwClient :=
  if data = pw then
    { c with phase := .readingHeader, buffered := [], timerStopped := true,
             comparisons := c.comparisons + 1 }
  else
    { c with phase := .disconnected, comparisons := c.comparisons + 1 }

/-- The C++ `state_beginReadingConnectPassword_onClientData`: a chunk at least as long
as the password is compared immediately (consuming exactly the password
length); a shorter chunk is buffered. -/
def state_beginReadingConnectPassword_onClientData (pw : Chars) (c : PwClient)
    (data : Chars) : PwClient × Nat :=
  if pw.length ≤ data.length then
    (checkConnectPassword pw c (data.take pw.length), pw.length)
  else
    ({ c with phase := .stillReading, buffered := data }, data.length)

/-- The C++ `state_stillReadingConnectPassword_onClientData`: consumes at most the
missing byte count, appends to the buffer, and compares exactly when the
accumulated length reaches the password length. -/
def state_stillReadingConnectPassword_onClientData (pw : Chars) (c : PwClient)
    (data : Chars) : PwClient × Nat :=
  let consumed := min data.length (pw.length - c.buffered.length)
  let c' := { c with buffered := c.buffered ++ data.take consumed }
  if c'.buffered.length = pw.length then
    (checkConnectPassword pw c' c'.buffered, consumed)
  else
    (c', consumed)

/-- The `onClientRealData` dispatch loop restricted to the two password
phases: each chunk delivered by the client input is fed to the handler for the
current phase; once the client leaves the password phases the remaining bytes
go to the header parser (outside this sub-machine), so processing stops. -/
def runPasswordPhases (pw : Chars) (c : PwClient) : List Chars → PwClient
  | [] => c
  | chunk :: rest =>
    match c.phase with
    | .beginReading =>
      runPasswordPhases pw (state_beginReadingConnectPassword_onClientData pw c chunk).1 rest
    | .stillReading =>
      runPasswordPhases pw (state_stillReadingConnectPassword_onClientData pw c chunk).1 rest
    | _ => c

def secretPw : Chars := chars (r"secret")

def secretFragments : List Chars := [['s'], ['e'], ['c'], ['r'], ['e'], ['t']]

/- ***** C9: spill-pipe commit / background-operation invariant ***** -/
/-- The client fields involved in the two disk-commit back-pressure couplings:
`clientOutputPipe.isCommittingToDisk` with `appInput`, and
`clientBodyBuffer.isCommittingToDisk` with `clientInput`, plus
`backgroundOperations`. -/
structure PipeState where
  outCommitting : Bool
  bodyCommitting : Bool
  appInputStarted : Bool
  clientInputStarted : Bool
  backgroundOperations : Nat
deriving DecidableEq

/-- After `Client::associate`: no pipe is committing, both readers may run,
no background operation is pending. -/
def pipeInit : PipeState :=
  ⟨false, false, true, true, 0⟩

/-- The events of the cited code paths.  `accepted` is the boolean returned by
`FileBackedPipe::write`: `false` means the pipe has begun committing to
disk. -/
inductive PipeEvent where
  /-- The C++ `writeToClientOutputPipe` performing one `clientOutputPipe->write`. -/
  | outWrite (accepted : Bool)
  /-- The C++ `onClientOutputPipeCommit`. -/
  | outCommit
  /-- The C++ `state_bufferingRequestBody_onClientData` performing one
  `clientBodyBuffer->write` (delivered by a started `clientInput`; the handler
  asserts the pipe is not already committing). -/
  | bodyWrite (accepted : Bool)
  /-- The C++ `state_bufferingRequestBody_onClientBodyBufferCommit`. -/
  | bodyCommit
  /-- The C++ `writeErrorResponse` performing one of its direct
  `clientOutputPipe->write` calls (the 500 header or the page body): the
  return value is ignored, `backgroundOperations` is not incremented and no
  reader is stopped. -/
  | errorPageWrite (accepted : Bool)
  /-- Any other code path incrementing `backgroundOperations`
  (e.g. `checkoutSession`). -/
  | bgIncrement
deriving DecidableEq

/-- One transition.  `none` marks events that cannot occur: a commit callback
without a pending commit, a body write while the body pipe is committing (the
handler asserts `!isCommittingToDisk()`) or while `clientInput` is stopped,
and an accepted write on a pipe that is already committing
(`FileBackedPipe::write` returns `false` until `onCommit` has fired).
`backgroundOperations` is a C++ `unsigned int`: the commit callbacks decrement
it with 32-bit wrap-around, so a decrement at zero yields `2 ^ 32 - 1`. -/
def pipeStep (s : PipeState) : PipeEvent → Option PipeState
  | .outWrite accepted =>
    if s.outCommitting && accepted then
      none
    else
      let wasCommittingToDisk := s.outCommitting
      let nowCommittingToDisk := !accepted
      if !wasCommittingToDisk && nowCommittingToDisk then
        some { s with outCommitting := nowCommittingToDisk,
                      backgroundOperations := s.backgroundOperations + 1,
                      appInputStarted := false }
      else
        some { s with outCommitting := nowCommittingToDisk }
  | .outCommit =>
    if s.outCommitting then
      some { s with outCommitting := false,
                    backgroundOperations :=
                      (s.backgroundOperations + (2 ^ 32 - 1)) % 2 ^ 32,
                    appInputStarted := true }
    else
      none
  | .bodyWrite accepted =>
    if s.clientInputStarted && !s.bodyCommitting then
      if accepted then
        some s
      else
        some { s with bodyCommitting := true,
                      backgroundOperations := s.backgroundOperations + 1,
                      clientInputStarted := false }
    else
      none
  | .bodyCommit =>
    if s.bodyCommitting then
      some { s with bodyCommitting := false,
                    backgroundOperations :=
                      (s.backgroundOperations + (2 ^ 32 - 1)) % 2 ^ 32,
                    clientInputStarted := true }
    else
      none
  | .errorPageWrite accepted =>
    if s.outCommitting && accepted then
      none
    else
      some { s with outCommitting := !accepted }
  | .bgIncrement =>
    some { s with backgroundOperations := s.backgroundOperations + 1 }

/-- States reachable from `pipeInit` by the events above. -/
inductive PipeReachable : PipeState → Prop where
  | init : PipeReachable pipeInit
  | step {s s' : PipeState} (e : PipeEvent) (hs : PipeReachable s)
      (he : pipeStep s e = some s') : PipeReachable s'

/- ***** Response header rewriting (C1, C6) ***** -/
/-- The C++ `std::string::find` worker: smallest index `≥ idx` at which `pat` occurs in
`hay`, scanning left to right. -/
def findFromAux (hay pat : Chars) (idx : Nat) : Option Nat :=
  match hay with
  | [] => if pat.isEmpty then some idx else none
  | x :: rest =>
    if pat.isPrefixOf (x :: rest) then some idx else findFromAux rest pat (idx + 1)

/-- The C++ `headerData.find(name, searchStart)`. -/
def strFind (hay pat : Chars) (start : Nat) : Option Nat :=
  findFromAux (hay.drop start) pat start

/-- Number of leading `' '` bytes; the skip loop of `extractHeaderValue`. -/
def countLeadingSpaces : Chars → Nat
  | [] => 0
  | c :: rest => if c = ' ' then countLeadingSpaces rest + 1 else 0

/-- The C++ `memchr`-style scan: the bytes before the first occurrence of `c`, or
`none` when `c` does not occur. -/
def takeUntilChar (c : Char) : Chars → Option Chars
  | [] => none
  | x :: xs => if x = c then some [] else (takeUntilChar c xs).map (fun v => x :: v)

/-- The C++ `value.find(' ') == string::npos` in `processResponseHeader`. -/
def containsChar : Chars → Char → Bool
  | [], _ => false
  | x :: xs, c => if x = c then true else containsChar xs c

/-- The C++ `RequestHandler::Header`, byte offsets instead of pointers: `pos` is where
the key starts in the header block; `valuePos` is where the extracted value
starts.  `found = false` is the empty `Header()` (its `key` is empty). -/
structure RHHeader where
  found : Bool
  pos : Nat
  valuePos : Nat
  value : Chars
deriving DecidableEq

def emptyRHHeader : RHHeader := ⟨false, 0, 0, []⟩

/-- The C++ `Header::size()`: `end() - begin()` where `end()` is two bytes past the end
of the value (the `"\r\n"`). -/
def RHHeader.hsize (h : RHHeader) : Nat := h.valuePos + h.value.length + 2 - h.pos

/-- The C++ `RequestHandler::extractHeaderValue`: skip leading spaces, then everything
up to the terminating `'\r'`.  Returns the skip count and the value.  When no
`'\r'` exists the C++ code returns a null `StaticString`; a header block
delivered by the header bufferer always ends in `"\r\n\r\n"`, so that path is
unreachable there and is modelled as the empty value. -/
def extractHeaderValue (data : Chars) : Nat × Chars :=
  let k := countLeadingSpaces data
  match takeUntilChar '\r' (data.drop k) with
  | some v => (k, v)
  | none => (k, [])

/-- The search loop of `RequestHandler::lookupHeader`; the fuel bounds the
number of rejected occurrences (each iteration advances `searchStart` by at
least one). -/
def lookupHeaderAux (fuel : Nat) (headerData name : Chars) (searchStart : Nat) : RHHeader :=
  match fuel with
  | 0 => emptyRHHeader
  | fuel + 1 =>
    if searchStart < headerData.length then
      match strFind headerData name searchStart with
      | none => emptyRHHeader
      | some pos =>
        if (pos = 0 ∨ headerData[pos - 1]? = some '\n') ∧
            pos + name.length < headerData.length ∧
            headerData[pos + name.length]? = some ':' then
          let ex := extractHeaderValue (headerData.drop (pos + name.length + 1))
          ⟨true, pos, pos + name.length + 1 + ex.1, ex.2⟩
        else
          lookupHeaderAux fuel headerData name (pos + name.length + 1)
    else emptyRHHeader

/-- The C++ `RequestHandler::lookupHeader`: case-sensitive scan for `name` at the
start of the block or right after a `'\n'`, followed by `':'`. -/
def lookupHeader (headerData name : Chars) : RHHeader :=
  lookupHeaderAux (headerData.length + 1) headerData name 0

def statusName : Chars := chars (r"Status")

def statusColonSpace : Chars := statusName ++ [':', ' ']

def httpSlashOneOne : Chars := chars (r"HTTP/1.1 ")

def unknownReasonPhrase : Chars := [' '] ++ chars (r"Unknown Reason-Phrase") ++ crlf

def malformedResponseMsg : Chars :=
  chars (r"application sent malformed response: it didn't send a Status header.")

/-- Modelled from the spec: the version literal `PASSENGER_VERSION` is defined
outside the included sources; its exact bytes play no role below. -/
def passengerVersionChars : Chars := chars (r"4.0")

/-- The server-identity header appended to every prefix. -/
def xPoweredByHeader : Chars :=
  chars (r"X-Powered-By: Phusion Passenger ") ++ passengerVersionChars ++ crlf

/-- Modelled from the spec: `stringToInt` (StrIntUtils is outside the included
sources) parses the leading decimal digits of the status value. -/
def stringToIntAux : Chars → Nat → Nat
  | [], acc => acc
  | c :: rest, acc =>
    if c.isDigit then stringToIntAux rest (acc * 10 + (c.toNat - 48)) else acc

def stringToInt (s : Chars) : Nat := stringToIntAux s 0

/-- Modelled from the spec: `getStatusCodeAndReasonPhrase` (HttpConstants.h is
outside the included sources) maps a known status code to `"<code> <reason>"`
and unknown codes to null; `200 ↦ "200 OK"` is the entry the spec fixes. -/
def getStatusCodeAndReasonPhrase (code : Nat) : Option Chars :=
  if code = 200 then some (chars (r"200 OK")) else none

/-- Decimal digit characters, as `toString(int)` renders a status code. -/
def digitChar (d : Nat) : Char := Char.ofNat (48 + d)

def natToCharsAux : Nat → Nat → Chars
  | 0, _ => []
  | fuel + 1, n =>
    if n < 10 then [digitChar n]
    else natToCharsAux fuel (n / 10) ++ [digitChar (n % 10)]

def natToChars (n : Nat) : Chars := natToCharsAux (n + 1) n

/-- The C++ `RequestHandler::appendData` on the fixed 100-byte `newStatus` buffer:
copies at most the remaining capacity. -/
def appendData (buf : Chars) (capacity : Nat) (data : Chars) : Chars :=
  buf ++ data.take (capacity - buf.length)

/-- The `newStatus` assembly inside `processResponseHeader` when the status
value has no reason phrase: `"Status: "`, then either the table entry plus
`"\r\n"` or the code's digits plus `" Unknown Reason-Phrase\r\n"`, within a
100-byte buffer. -/
def buildNewStatus (statusCode : Nat) : Chars :=
  let b1 := appendData [] 100 statusColonSpace
  match getStatusCodeAndReasonPhrase statusCode with
  | none =>
    appendData (appendData b1 100 (natToChars statusCode)) 100 unknownReasonPhrase
  | some p =>
    appendData (appendData b1 100 p) 100 crlf

/-- The C++ `std::string::replace(pos, len, repl)`. -/
def replaceSub (s : Chars) (pos len : Nat) (repl : Chars) : Chars :=
  s.take pos ++ repl ++ s.drop (pos + len)

/-- Outcome of `processResponseHeader`: either
`disconnectWithError(client, msg)` (no bytes written to the client output
pipe), or the byte sequence written to the client output pipe. -/
inductive ProcResult where
  | disconnectedWith (msg : Chars)
  | wrote (out : Chars)
deriving DecidableEq

def ProcResult.isWrote : ProcResult → Bool
  | .wrote _ => true
  | _ => false

/-- The C++ `RequestHandler::processResponseHeader`: looks up `Status`; a missing
header disconnects the client; a value without a space is replaced by a
synthesized `Status` line; if `PASSENGER_PRINT_STATUS_LINE` (default true) an
HTTP/1.1 status line is prepended; the `X-Powered-By` identity header is
always appended to the prefix; finally the prefix, the (possibly new) header
block and the rest data are written in order.  In the unmodified case both
C++ sub-branches write exactly the header block followed by the rest data. -/
def processResponseHeader (reqHeaders : HdrMap) (headerData rest : Chars) : ProcResult :=
  let status0 := lookupHeader headerData statusName
  if status0.found = false then
    .disconnectedWith malformedResponseMsg
  else
    let newHeaderData : Option Chars :=
      if !(containsChar status0.value ' ') then
        let statusCode := stringToInt status0.value
        let newStatus := buildNewStatus statusCode
        some (replaceSub headerData status0.pos status0.hsize newStatus)
      else none
    let statusForLine : RHHeader :=
      match newHeaderData with
      | some nh => lookupHeader nh statusName
      | none => status0
    let pfx0 : Chars :=
      if getBoolOption reqHeaders passengerPrintStatusLine true then
        httpSlashOneOne ++ statusForLine.value ++ crlf
      else []
    let pfx := pfx0 ++ xPoweredByHeader
    match newHeaderData with
    | none =>
      if pfx.isEmpty then
        .wrote (headerData ++ rest)
      else
        .wrote (pfx ++ headerData ++ rest)
    | some nh =>
      .wrote (pfx ++ nh ++ rest)

/-- The reason-phrase synthesis: the value of the rewritten `Status` header. -/
def reasonFor (code : Nat) : Chars :=
  match getStatusCodeAndReasonPhrase code with
  | some p => p
  | none => natToChars code ++ [' '] ++ chars (r"Unknown Reason-Phrase")

/- ***** C7: pool checkout error handling ***** -/
/-- The two client states the checkout-error path can leave a connected client
in. -/
inductive ClientState where
  | checkingOutSession
  | writingSimpleResponse
deriving DecidableEq

/-- Payload of a `SpawnException`: its message, optional pre-rendered error
page and whether the page is HTML. -/
structure SpawnExceptionData where
  what : Chars
  errorPage : Chars
  isHTML : Bool
deriving DecidableEq

/-- The dynamic type of the exception delivered by `pool->asyncGet`. -/
inductive ExceptionValue where
  | spawnExc (e : SpawnExceptionData)
  | otherExc (what : Chars)
deriving DecidableEq

/-- The C++ `dynamic_pointer_cast<SpawnException>`: an empty shared pointer for every
other exception type (it does not throw `bad_cast`). -/
def dynamicPointerCastSpawn : ExceptionValue → Option SpawnExceptionData
  | .spawnExc e => some e
  | .otherExc _ => none

def http500Line : Chars := chars (r"HTTP/1.1 500 Internal Server Error") ++ crlf

def status500Line : Chars := chars (r"Status: 500 Internal Server Error") ++ crlf

def contentLengthLabel : Chars := chars (r"Content-Length: ")

def contentTypeLine : Chars := chars (r"Content-Type: text/html; charset=UTF-8") ++ crlf

/-- Modelled from the spec: the friendly error page is rendered from template
files outside the included sources, with the message and the exception's
uppercased annotations as parameters; only the message is carried here. -/
def renderFriendlyErrorPage (message : Chars) (e : Option SpawnExceptionData) : Chars :=
  match e with
  | some _ => message
  | none => message

/-- Modelled from the spec: the static undisclosed-error template. -/
def undisclosedErrorPage : Chars := chars (r"undisclosed error")

/-- Result of `writeErrorResponse`: the state transition and the bytes written
to the client output pipe (header, then body), followed by `end()`. -/
structure ErrorResponse where
  newState : ClientState
  bytes : Chars
  pipeEnded : Bool
deriving DecidableEq

/-- The C++ `RequestHandler::writeErrorResponse`: enters `WRITING_SIMPLE_RESPONSE`,
renders either the friendly page (default) or the undisclosed page, and writes
a 500 header — with the `HTTP/1.1` status line iff
`PASSENGER_PRINT_STATUS_LINE` — followed by `Status: 500`, `Content-Length`,
`Content-Type` and the body. -/
def writeErrorResponse (reqHeaders : HdrMap) (message : Chars)
    (e : Option SpawnExceptionData) : ErrorResponse :=
  let data :=
    if getBoolOption reqHeaders passengerFriendlyErrorPages true then
      renderFriendlyErrorPage message e
    else
      undisclosedErrorPage
  let header :=
    (if getBoolOption reqHeaders passengerPrintStatusLine true then http500Line else []) ++
    status500Line ++
    contentLengthLabel ++ natToChars data.length ++ crlf ++
    contentTypeLine ++ crlf
  ⟨.writingSimpleResponse, header ++ data, true⟩

/-- Outcome of `sessionCheckedOut_real` once the callback runs on the event
loop with a connected client. -/
inductive CheckoutOutcome where
  /-- The C++ `writeErrorResponse` ran. -/
  | errorResponse (r : ErrorResponse)
  /-- The C++ `e2->getErrorPage()` was invoked through an empty `shared_ptr`
  (undefined behaviour; the `catch (const bad_cast &)` handler is unreachable
  because `dynamic_pointer_cast` returns an empty pointer instead of
  throwing). -/
  | nullPointerDeref
  /-- No error: the session is attached and `initiateSession` follows. -/
  | proceeded
deriving DecidableEq

def CheckoutOutcome.stateOf : CheckoutOutcome → Option ClientState
  | .errorResponse r => some r.newState
  | _ => none

def CheckoutOutcome.bytesWritten : CheckoutOutcome → Chars
  | .errorResponse r => r.bytes
  | _ => []

/-- The C++ `RequestHandler::sessionCheckedOut_real`, error-dispatch part. -/
def sessionCheckedOut_real (reqHeaders : HdrMap) (e : Option ExceptionValue) :
    CheckoutOutcome :=
  match e with
  | some exc =>
    match dynamicPointerCastSpawn exc with
    | none => .nullPointerDeref
    | some e2 =>
      if e2.errorPage.isEmpty then
        .errorResponse (writeErrorResponse reqHeaders e2.what none)
      else
        .errorResponse (writeErrorResponse reqHeaders e2.errorPage (some e2))
  | none => .proceeded

/- ***** C2: request-body forwarding, buffered vs unbuffered ***** -/
/-- One `syscalls::write` on the worker socket, driven by an acceptance
schedule: `none` is `EAGAIN`, `some k` accepts `min k size` bytes; an
exhausted schedule accepts everything. -/
def writeApp : List (Option Nat) → Chars → List (Option Nat) × Option Nat
  | [], d => ([], some d.length)
  | a :: restSched, d => (restSched, a.map (fun k => min k d.length))

/-- Result of a body-forwarding run. -/
inductive FwdResult where
  /-- Client EOF / pipe end reached with everything written: the worker's
  write side is half-closed (`shutdown(SHUT_WR)`). -/
  | done (worker : Chars)
  /-- The C++ `state_forwardingBodyToApp_onAppOutputWritable` ran with
  `requestBodyIsBuffered` set: its `assert(!client->requestBodyIsBuffered)`
  fails (and its resume logic restarts `clientInput` instead of the body
  pipe). -/
  | assertFailed
  | outOfFuel
deriving DecidableEq

/-- Unbuffered mode: `clientInput` delivers body chunks to
`state_forwardingBodyToApp_onClientData`; `EAGAIN` stops the input and arms
`appOutputWatcher`, whose callback restarts the input; a partial write is
redelivered by `EventedBufferedInput`; client EOF half-closes the worker. -/
def runUnbuf : Nat → List (Option Nat) → Bool → Chars → List Chars → Chars → FwdResult
  | 0, _, _, _, _, _ => .outOfFuel
  | fuel + 1, sched, false, pending, chunks, worker =>
    runUnbuf fuel sched true pending chunks worker
  | _ + 1, _, true, [], [], worker => .done worker
  | fuel + 1, sched, true, [], c :: cs, worker =>
    runUnbuf fuel sched true c cs worker
  | fuel + 1, sched, true, p :: ps, chunks, worker =>
    match writeApp sched (p :: ps) with
    | (sched', none) => runUnbuf fuel sched' false (p :: ps) chunks worker
    | (sched', some k) =>
      runUnbuf fuel sched' true ((p :: ps).drop k) chunks (worker ++ (p :: ps).take k)

/-- Buffered mode: the body pipe delivers its contents (in chunkings of its
choosing) to `state_forwardingBodyToApp_onClientBodyBufferData`; a partial ack
keeps the tail in the pipe; `EAGAIN` stops the pipe and arms
`appOutputWatcher` — but when that watcher fires, `onAppOutputWritable`
dispatches to `state_forwardingBodyToApp_onAppOutputWritable`, which asserts
`!requestBodyIsBuffered` and never restarts the pipe. -/
def runBuf : Nat → List (Option Nat) → Bool → Chars → List Chars → Chars → FwdResult
  | 0, _, _, _, _, _ => .outOfFuel
  | _ + 1, _, false, _, _, _ => .assertFailed
  | _ + 1, _, true, [], [], worker => .done worker
  | fuel + 1, sched, true, [], d :: ds, worker =>
    runBuf fuel sched true d ds worker
  | fuel + 1, sched, true, p :: ps, deliveries, worker =>
    match writeApp sched (p :: ps) with
    | (sched', none) => runBuf fuel sched' false (p :: ps) deliveries worker
    | (sched', some k) =>
      runBuf fuel sched' true ((p :: ps).drop k) deliveries (worker ++ (p :: ps).take k)

/-- The buffering phase (`state_bufferingRequestBody_onClientData`): each
chunk is appended to the body pipe in arrival order and fully consumed. -/
def bufferBody (chunks : List Chars) : Chars :=
  chunks.foldl (fun acc c => acc ++ c) []

/- ***** Theorems ***** -/

/- ***** Lemmas about the header map ***** -/
theorem mapFind_erase_self (m : HdrMap) (k : Chars) :
    mapFind (mapErase m k) k = none := by
  induction m with
  | nil => rfl
  | cons p rest ih =>
    obtain ⟨k', v⟩ := p
    by_cases h : k' = k
    · simpa [mapErase, h] using ih
    · simpa [mapErase, mapFind, h] using ih

theorem mapFind_erase_other (m : HdrMap) (k k' : Chars) (h : k' ≠ k) :
    mapFind (mapErase m k) k' = mapFind m k' := by
  induction m with
  | nil => rfl
  | cons p rest ih =>
    obtain ⟨ky, v⟩ := p
    by_cases hp : ky = k
    · subst hp
      have hne : ky ≠ k' := Ne.symm h
      simpa [mapErase, mapFind, hne] using ih
    · by_cases hp' : ky = k'
      · subst hp'
        simp [mapErase, mapFind, hp, Ne.symm h]
      · simpa [mapErase, mapFind, hp, hp'] using ih

theorem mapFind_set_other (m : HdrMap) (k k' : Chars) (v : Chars) (h : k' ≠ k) :
    mapFind (mapSet m k v) k' = mapFind m k' := by
  induction m with
  | nil => simp [mapSet, mapFind, Ne.symm h]
  | cons p rest ih =>
    obtain ⟨ky, w⟩ := p
    by_cases hp : ky = k
    · subst hp
      simp [mapSet, mapFind, Ne.symm h]
    · by_cases hp' : ky = k'
      · subst hp'
        simp [mapSet, mapFind, hp, Ne.symm h, mapFind]
      · simp [mapSet, mapFind, hp, hp', ih]

theorem mapFind_set_self (m : HdrMap) (k v : Chars) :
    mapFind (mapSet m k v) k = some v := by
  induction m with
  | nil => simp [mapSet, mapFind]
  | cons p rest ih =>
    obtain ⟨ky, w⟩ := p
    by_cases hp : ky = k
    · simp [mapSet, mapFind, hp]
    · simp [mapSet, mapFind, hp, ih]

/- ***** Lemmas about moveHeaderStep ***** -/
theorem moveHeaderStep_find_src (m : HdrMap) (src dst : Chars) :
    mapFind (moveHeaderStep m src dst).1 src = none := by
  unfold moveHeaderStep
  cases hs : mapFind m src with
  | none => simpa using hs
  | some v =>
    by_cases hd : mapFind m dst = none
    · simp [hd, mapFind_erase_self]
    · simp [hd, mapFind_erase_self]

theorem moveHeaderStep_find_dst (m : HdrMap) (src dst : Chars) (h : dst ≠ src) :
    mapFind (moveHeaderStep m src dst).1 dst =
      Option.orElse (mapFind m dst) (fun _ => mapFind m src) := by
  unfold moveHeaderStep
  cases hs : mapFind m src with
  | none =>
    cases hd : mapFind m dst <;> simp [hd, Option.orElse]
  | some v =>
    cases hd : mapFind m dst with
    | none =>
      simp [hd, Option.orElse, mapFind_erase_other _ _ _ h, mapFind_set_self]
    | some w =>
      simp [hd, Option.orElse, mapFind_erase_other _ _ _ h]

theorem moveHeaderStep_find_other (m : HdrMap) (src dst k : Chars)
    (h1 : k ≠ src) (h2 : k ≠ dst) :
    mapFind (moveHeaderStep m src dst).1 k = mapFind m k := by
  unfold moveHeaderStep
  cases hs : mapFind m src with
  | none => simp
  | some v =>
    by_cases hd : mapFind m dst = none
    · simp [hd, mapFind_erase_other _ _ _ h1, mapFind_set_other _ _ _ _ h2]
    · simp [hd, mapFind_erase_other _ _ _ h1]

theorem moveHeaderStep_modified (m : HdrMap) (src dst : Chars) :
    (moveHeaderStep m src dst).2 = (mapFind m src).isSome := by
  unfold moveHeaderStep
  cases hs : mapFind m src with
  | none => simp
  | some v =>
    by_cases hd : mapFind m dst = none <;> simp [hd]

/- ***** Key distinctness facts ***** -/
theorem keysDistinct :
    contentLength ≠ httpContentLength ∧ httpContentType ≠ httpContentLength ∧
    httpContentType ≠ contentLength ∧ contentType ≠ httpContentLength ∧
    contentType ≠ contentLength ∧ contentLength ≠ httpContentType ∧
    contentLength ≠ contentType ∧ httpContentLength ≠ httpContentType ∧
    httpContentLength ≠ contentType ∧ contentType ≠ httpContentType := by decide

/-- C4: after `modifyClientHeaders`, `HTTP_CONTENT_LENGTH` and
`HTTP_CONTENT_TYPE` are gone; `CONTENT_LENGTH` keeps its original value when it
existed and otherwise receives the `HTTP_CONTENT_LENGTH` value (likewise for
`CONTENT_TYPE`); the modified flag is set iff one of the `HTTP_` variants was
present; and the serialized header data passed on to the application is rebuilt
iff that flag is set. -/
theorem c4_modifyClientHeaders_spec (m : HdrMap) (orig : Chars) :
    mapFind (modifyClientHeaders m).1 httpContentLength = none ∧
    mapFind (modifyClientHeaders m).1 httpContentType = none ∧
    mapFind (modifyClientHeaders m).1 contentLength =
      Option.orElse (mapFind m contentLength) (fun _ => mapFind m httpContentLength) ∧
    mapFind (modifyClientHeaders m).1 contentType =
      Option.orElse (mapFind m contentType) (fun _ => mapFind m httpContentType) ∧
    (modifyClientHeaders m).2 =
      ((mapFind m httpContentLength).isSome || (mapFind m httpContentType).isSome) ∧
    rebuildData (modifyClientHeaders m).2 (modifyClientHeaders m).1 orig =
      (if (mapFind m httpContentLength).isSome || (mapFind m httpContentType).isSome then
        rebuildData true (modifyClientHeaders m).1 orig
      else orig) := by
  obtain ⟨ne1, ne2, ne3, ne4, ne5, ne6, ne7, ne8, ne9, ne10⟩ := keysDistinct
  set s1 := moveHeaderStep m httpContentLength contentLength with hs1
  have hmap : (modifyClientHeaders m).1 = (moveHeaderStep s1.1 httpContentType contentType).1 := rfl
  have hflag : (modifyClientHeaders m).2 =
      (s1.2 || (moveHeaderStep s1.1 httpContentType contentType).2) := rfl
  -- facts about the first step
  have f1 : mapFind s1.1 httpContentLength = none := moveHeaderStep_find_src m _ _
  have f2 : mapFind s1.1 contentLength =
      Option.orElse (mapFind m contentLength) (fun _ => mapFind m httpContentLength) :=
    moveHeaderStep_find_dst m _ _ ne1
  have f3 : mapFind s1.1 httpContentType = mapFind m httpContentType :=
    moveHeaderStep_find_other m _ _ _ ne2 ne3
  have f4 : mapFind s1.1 contentType = mapFind m contentType :=
    moveHeaderStep_find_other m _ _ _ ne4 ne5
  -- facts about the second step
  have g1 : mapFind (moveHeaderStep s1.1 httpContentType contentType).1 httpContentLength =
      mapFind s1.1 httpContentLength :=
    moveHeaderStep_find_other s1.1 _ _ _ ne8 ne9
  have g2 : mapFind (moveHeaderStep s1.1 httpContentType contentType).1 contentLength =
      mapFind s1.1 contentLength :=
    moveHeaderStep_find_other s1.1 _ _ _ ne6 ne7
  have g3 : mapFind (moveHeaderStep s1.1 httpContentType contentType).1 httpContentType = none :=
    moveHeaderStep_find_src s1.1 _ _
  have g4 : mapFind (moveHeaderStep s1.1 httpContentType contentType).1 contentType =
      Option.orElse (mapFind s1.1 contentType) (fun _ => mapFind s1.1 httpContentType) :=
    moveHeaderStep_find_dst s1.1 _ _ ne10
  have mod1 : s1.2 = (mapFind m httpContentLength).isSome := moveHeaderStep_modified m _ _
  have mod2 : (moveHeaderStep s1.1 httpContentType contentType).2 =
      (mapFind m httpContentType).isSome := by
    rw [moveHeaderStep_modified, f3]
  have hflag' : (modifyClientHeaders m).2 =
      ((mapFind m httpContentLength).isSome || (mapFind m httpContentType).isSome) := by
    rw [hflag, mod1, mod2]
  refine ⟨?_, ?_, ?_, ?_, hflag', ?_⟩
  · rw [hmap, g1, f1]
  · rw [hmap, g3]
  · rw [hmap, g2, f2]
  · rw [hmap, g4, f4, f3]
  · rw [hflag']
    cases hb : ((mapFind m httpContentLength).isSome || (mapFind m httpContentType).isSome) <;>
      simp [rebuildData]

/-- C10: a boolean option read through `getBoolOption` (and the bool overload
of `fillPoolOption`) is true iff the header's value is exactly the byte string
`true`; any other present value yields false, and only an absent header yields
the supplied default (resp. leaves the field untouched). -/
theorem c10_bool_option_exact_true (hdrs : HdrMap) (name : Chars) (d field : Bool) :
    (∀ v, mapFind hdrs name = some v →
      getBoolOption hdrs name d = decide (v = trueChars) ∧
      fillPoolOption hdrs field name = decide (v = trueChars)) ∧
    (mapFind hdrs name = none →
      getBoolOption hdrs name d = d ∧ fillPoolOption hdrs field name = field) := by
  constructor
  · intro v hv
    constructor
    · unfold getBoolOption
      rw [hv]
    · unfold fillPoolOption
      rw [hv]
  · intro hnone
    constructor
    · unfold getBoolOption
      rw [hnone]
    · unfold fillPoolOption
      rw [hnone]

/-- C10 witness: concrete instances — the value `1` does not enable
`PASSENGER_BUFFERING`, `TRUE` does not enable it either, `true` does, and an
absent `PASSENGER_PRINT_STATUS_LINE` header yields the default `true`. -/
theorem c10_bool_option_exact_true_witness :
    getBoolOption [(passengerBuffering, ['1'])] passengerBuffering false = false ∧
    getBoolOption [(passengerBuffering, chars (r"TRUE"))] passengerBuffering false = false ∧
    getBoolOption [(passengerBuffering, chars (r"yes"))] passengerBuffering false = false ∧
    getBoolOption [(passengerBuffering, trueChars)] passengerBuffering false = true ∧
    getBoolOption [] passengerPrintStatusLine true = true := by
  refine ⟨?_, ?_, ?_, ?_, ?_⟩
  · rw [((c10_bool_option_exact_true [(passengerBuffering, ['1'])] passengerBuffering false false).1
      ['1'] (by decide)).1]
    decide
  · rw [((c10_bool_option_exact_true [(passengerBuffering, chars (r"TRUE"))] passengerBuffering false
      false).1 (chars (r"TRUE")) (by decide)).1]
    decide
  · rw [((c10_bool_option_exact_true [(passengerBuffering, chars (r"yes"))] passengerBuffering false
      false).1 (chars (r"yes")) (by decide)).1]
    decide
  · rw [((c10_bool_option_exact_true [(passengerBuffering, trueChars)] passengerBuffering false
      false).1 trueChars (by decide)).1]
    decide
  · exact ((c10_bool_option_exact_true [] passengerPrintStatusLine true false).2 rfl).1

/-- C8: when `session->initiate()` throws a system exception, the checkout is
retried with the same options while the attempt count stays below 10, and the
client is disconnected with an error once the attempt count reaches 10. -/
theorem c8_initiateSession_retries (opts : PoolOptions) (t : Nat) :
    (t + 1 < 10 →
      initiateSession opts t .throwsSystem = .retried opts (t + 1)) ∧
    (10 ≤ t + 1 →
      initiateSession opts t .throwsSystem = .disconnected couldNotInitiateMsg) := by
  constructor
  · intro h
    simp [initiateSession, h]
  · intro h
    simp [initiateSession, Nat.not_lt.mpr h]

/-- C8 witness: with a concrete options record, the 9th attempt (counter 8
before the call) retries and the 10th attempt (counter 9 before the call)
disconnects. -/
theorem c8_initiateSession_retries_witness :
    initiateSession ⟨[], [], [], [], false⟩ 8 .throwsSystem =
      .retried ⟨[], [], [], [], false⟩ 9 ∧
    initiateSession ⟨[], [], [], [], false⟩ 9 .throwsSystem =
      .disconnected couldNotInitiateMsg := by
  constructor
  · exact (c8_initiateSession_retries ⟨[], [], [], [], false⟩ 8).1 (by decide)
  · exact (c8_initiateSession_retries ⟨[], [], [], [], false⟩ 9).2 (by decide)

theorem decodeBE32_uint32BE (n : Nat) (h : n < 2 ^ 32) :
    decodeBE32 (uint32BE n) = n := by
  simp only [uint32BE, decodeBE32]
  omega

/-- C3: the dispatch frame is exactly a 4-byte big-endian length prefix,
followed by the header block, the null-terminated literal
`PASSENGER_CONNECT_PASSWORD` and the null-terminated connect password; the
prefix decodes to the byte count of everything after it (its own four bytes
excluded). -/
theorem c3_sendHeaderToApp_frame (headerData connectPassword : Bytes)
    (h : headerData.length + passengerConnectPasswordBytes.length + 1 +
      connectPassword.length + 1 < 2 ^ 32) :
    sendHeaderToAppFrame headerData connectPassword =
      uint32BE (headerData.length + passengerConnectPasswordBytes.length + 1 +
        connectPassword.length + 1) ++
      headerData ++ passengerConnectPasswordBytes ++ [0] ++ connectPassword ++ [0] ∧
    decodeBE32 ((sendHeaderToAppFrame headerData connectPassword).take 4) =
      ((sendHeaderToAppFrame headerData connectPassword).drop 4).length ∧
    (sendHeaderToAppFrame headerData connectPassword).length =
      4 + headerData.length + passengerConnectPasswordBytes.length + 1 +
        connectPassword.length + 1 := by
  have hsz :
      ((((0 + headerData.length % 2 ^ 32) % 2 ^ 32 +
          (passengerConnectPasswordBytes ++ [0]).length % 2 ^ 32) % 2 ^ 32
        + (connectPassword ++ [0]).length % 2 ^ 32) % 2 ^ 32) =
      headerData.length + passengerConnectPasswordBytes.length + 1 +
        connectPassword.length + 1 := by
    simp only [List.length_append, List.length_cons, List.length_nil]
    omega
  have hframe : sendHeaderToAppFrame headerData connectPassword =
      uint32BE (headerData.length + passengerConnectPasswordBytes.length + 1 +
        connectPassword.length + 1) ++
      headerData ++ passengerConnectPasswordBytes ++ [0] ++ connectPassword ++ [0] := by
    unfold sendHeaderToAppFrame
    simp only [makeStaticStringWithNull]
    rw [hsz]
    simp [List.append_assoc]
  refine ⟨hframe, ?_, ?_⟩
  · rw [hframe]
    have htake : (uint32BE (headerData.length + passengerConnectPasswordBytes.length + 1 +
        connectPassword.length + 1) ++
        headerData ++ passengerConnectPasswordBytes ++ [0] ++ connectPassword ++ [0]).take 4 =
        uint32BE (headerData.length + passengerConnectPasswordBytes.length + 1 +
          connectPassword.length + 1) := by
      simp [uint32BE, List.append_assoc]
    have hdrop : ((uint32BE (headerData.length + passengerConnectPasswordBytes.length + 1 +
        connectPassword.length + 1) ++
        headerData ++ passengerConnectPasswordBytes ++ [0] ++ connectPassword ++ [0]).drop 4) =
        headerData ++ passengerConnectPasswordBytes ++ [0] ++ connectPassword ++ [0] := by
      simp [uint32BE, List.append_assoc]
    rw [htake, hdrop, decodeBE32_uint32BE _ h]
    simp
    omega
  · rw [hframe]
    simp [uint32BE]
    omega

/-- C3 witness: a concrete frame for a 4-byte header block and a 1-byte
password: the length prefix is `0 + 0 + 0 + 33` and the payload follows
byte-for-byte. -/
theorem c3_sendHeaderToApp_frame_witness :
    (4 : Nat) + 26 + 1 + 1 + 1 < 2 ^ 32 ∧
    sendHeaderToAppFrame [65, 0, 66, 0] [115] =
      uint32BE (4 + 26 + 1 + 1 + 1) ++
      [65, 0, 66, 0] ++ passengerConnectPasswordBytes ++ [0] ++ [115] ++ [0] := by
  constructor
  · decide
  · have h := (c3_sendHeaderToApp_frame [65, 0, 66, 0] [115] (by decide)).1
    simpa using h

/- ***** C5: connect-password phases ***** -/
/-- Helper: taking at least the whole left part of an append. -/
theorem take_append_ge {α : Type} (l₁ l₂ : List α) (n : Nat) (h : l₁.length ≤ n) :
    (l₁ ++ l₂).take n = l₁ ++ l₂.take (n - l₁.length) := by
  induction l₁ generalizing n with
  | nil => simp
  | cons x xs ih =>
    cases n with
    | zero => simp at h
    | succ m =>
      simp only [List.cons_append, List.take_succ_cons, List.length_cons]
      rw [ih m (by simpa using h)]
      simp [Nat.succ_sub_succ]

/-- Helper: taking at most the whole left part of an append. -/
theorem take_append_le {α : Type} (l₁ l₂ : List α) (n : Nat) (h : n ≤ l₁.length) :
    (l₁ ++ l₂).take n = l₁.take n := by
  induction l₁ generalizing n with
  | nil =>
    simp only [List.length_nil, Nat.le_zero] at h
    simp [h]
  | cons x xs ih =>
    cases n with
    | zero => simp
    | succ m =>
      simp only [List.cons_append, List.take_succ_cons]
      rw [ih m (by simpa using h)]

theorem runPasswordPhases_stopped (pw : Chars) (c : PwClient) (chunks : List Chars)
    (h : c.phase = .readingHeader ∨ c.phase = .disconnected) :
    runPasswordPhases pw c chunks = c := by
  cases chunks with
  | nil => rfl
  | cons chunk rest =>
    rcases h with h | h <;> simp [runPasswordPhases, h]

/-- Behaviour of the `STILL_READING_CONNECT_PASSWORD` loop: starting from a
buffered strict prefix, the run buffers until the accumulated length reaches
the password length, at which point exactly one full comparison decides the
outcome. -/
theorem runStillSpec (pw : Chars) :
    ∀ (chunks : List Chars) (b : Chars), b.length < pw.length →
    (pw.length ≤ (b ++ chunks.flatten).length →
      (runPasswordPhases pw ⟨.stillReading, b, false, 0⟩ chunks).comparisons = 1 ∧
      ((b ++ chunks.flatten).take pw.length = pw →
        (runPasswordPhases pw ⟨.stillReading, b, false, 0⟩ chunks).phase = .readingHeader ∧
        (runPasswordPhases pw ⟨.stillReading, b, false, 0⟩ chunks).timerStopped = true) ∧
      ((b ++ chunks.flatten).take pw.length ≠ pw →
        (runPasswordPhases pw ⟨.stillReading, b, false, 0⟩ chunks).phase = .disconnected)) ∧
    ((b ++ chunks.flatten).length < pw.length →
      (runPasswordPhases pw ⟨.stillReading, b, false, 0⟩ chunks).comparisons = 0 ∧
      (runPasswordPhases pw ⟨.stillReading, b, false, 0⟩ chunks).buffered = b ++ chunks.flatten ∧
      (runPasswordPhases pw ⟨.stillReading, b, false, 0⟩ chunks).phase = .stillReading ∧
      (runPasswordPhases pw ⟨.stillReading, b, false, 0⟩ chunks).timerStopped = false) := by
  intro chunks
  induction chunks with
  | nil =>
    intro b hb
    constructor
    · intro hge
      simp at hge
      omega
    · intro _
      simp [runPasswordPhases]
  | cons chunk rest ih =>
    intro b hb
    have hrun : runPasswordPhases pw ⟨.stillReading, b, false, 0⟩ (chunk :: rest) =
        runPasswordPhases pw
          (state_stillReadingConnectPassword_onClientData pw ⟨.stillReading, b, false, 0⟩ chunk).1
          rest := rfl
    by_cases hc : chunk.length < pw.length - b.length
    · -- the chunk does not complete the password: it is buffered whole
      have hcons : min chunk.length (pw.length - b.length) = chunk.length :=
        Nat.min_eq_left (Nat.le_of_lt hc)
      have hstate :
          (state_stillReadingConnectPassword_onClientData pw ⟨.stillReading, b, false, 0⟩ chunk).1 =
          ⟨.stillReading, b ++ chunk, false, 0⟩ := by
        unfold state_stillReadingConnectPassword_onClientData
        simp only [hcons, List.take_length]
        have hlt : ¬(b.length + chunk.length = pw.length) := by omega
        simp [hlt]
      rw [hrun, hstate]
      have ihr := ih (b ++ chunk) (by simp only [List.length_append]; omega)
      have hjoin : (b ++ chunk) ++ rest.flatten = b ++ (chunk :: rest).flatten := by
        simp [List.append_assoc]
      rw [hjoin] at ihr
      exact ihr
    · -- the chunk completes the password: exactly one comparison happens here
      have hle : pw.length - b.length ≤ chunk.length := Nat.le_of_not_lt hc
      have hcons : min chunk.length (pw.length - b.length) = pw.length - b.length :=
        Nat.min_eq_right hle
      have hbuflen : (b ++ chunk.take (pw.length - b.length)).length = pw.length := by
        simp only [List.length_append, List.length_take]
        omega
      have hbuf : b ++ chunk.take (pw.length - b.length) =
          (b ++ (chunk :: rest).flatten).take pw.length := by
        have h1 : (b ++ (chunk :: rest).flatten).take pw.length =
            b ++ ((chunk :: rest).flatten).take (pw.length - b.length) := by
          exact take_append_ge b _ pw.length (Nat.le_of_lt hb)
        have h2 : ((chunk :: rest).flatten).take (pw.length - b.length) =
            chunk.take (pw.length - b.length) := by
          have : (chunk :: rest).flatten = chunk ++ rest.flatten := by simp
          rw [this]
          exact take_append_le chunk _ (pw.length - b.length) hle
        rw [h1, h2]
      have hstate :
          (state_stillReadingConnectPassword_onClientData pw ⟨.stillReading, b, false, 0⟩ chunk).1 =
          checkConnectPassword pw ⟨.stillReading, b ++ chunk.take (pw.length - b.length), false, 0⟩
            (b ++ chunk.take (pw.length - b.length)) := by
        unfold state_stillReadingConnectPassword_onClientData
        simp only [hcons]
        simp [hbuflen]
      have htotal : pw.length ≤ (b ++ (chunk :: rest).flatten).length := by
        simp only [List.length_append, List.flatten_cons, List.length_append]
        omega
      rw [hrun, hstate]
      by_cases hm : b ++ chunk.take (pw.length - b.length) = pw
      · have hcheck : checkConnectPassword pw
            ⟨.stillReading, b ++ chunk.take (pw.length - b.length), false, 0⟩
            (b ++ chunk.take (pw.length - b.length)) =
            ⟨.readingHeader, [], true, 1⟩ := by
          unfold checkConnectPassword
          simp [hm]
        rw [hcheck, runPasswordPhases_stopped pw _ rest (Or.inl rfl)]
        refine ⟨fun _ => ⟨rfl, fun _ => ⟨rfl, rfl⟩, fun hne => ?_⟩, fun hlt => ?_⟩
        · exact absurd (hbuf ▸ hm) hne
        · omega
      · have hcheck : checkConnectPassword pw
            ⟨.stillReading, b ++ chunk.take (pw.length - b.length), false, 0⟩
            (b ++ chunk.take (pw.length - b.length)) =
            ⟨.disconnected, b ++ chunk.take (pw.length - b.length), false, 1⟩ := by
          unfold checkConnectPassword
          simp [hm]
        rw [hcheck, runPasswordPhases_stopped pw _ rest (Or.inr rfl)]
        refine ⟨fun _ => ⟨rfl, fun heq => ?_, fun _ => rfl⟩, fun hlt => ?_⟩
        · exact absurd (hbuf.symm ▸ heq) hm
        · omega

/-- C5: for every partition of the client input into chunks, prefixes shorter
than the configured password length are buffered (no comparison yet), and the
chunk whose bytes make the accumulated length reach the password length
triggers exactly one full byte-for-byte comparison; a match moves the client
to `READING_HEADER` and stops the timeout timer, a mismatch disconnects. -/
theorem c5_connect_password_chunking (pw : Chars) (chunks : List Chars) (hpw : pw ≠ []) :
    (pw.length ≤ chunks.flatten.length →
      (runPasswordPhases pw pwInit chunks).comparisons = 1 ∧
      (chunks.flatten.take pw.length = pw →
        (runPasswordPhases pw pwInit chunks).phase = .readingHeader ∧
        (runPasswordPhases pw pwInit chunks).timerStopped = true) ∧
      (chunks.flatten.take pw.length ≠ pw →
        (runPasswordPhases pw pwInit chunks).phase = .disconnected)) ∧
    (chunks.flatten.length < pw.length →
      (runPasswordPhases pw pwInit chunks).comparisons = 0 ∧
      (runPasswordPhases pw pwInit chunks).buffered = chunks.flatten ∧
      ((runPasswordPhases pw pwInit chunks).phase = .beginReading ∨
        (runPasswordPhases pw pwInit chunks).phase = .stillReading) ∧
      (runPasswordPhases pw pwInit chunks).timerStopped = false) := by
  have hpwlen : 0 < pw.length := List.length_pos.mpr hpw
  cases chunks with
  | nil =>
    refine ⟨fun hge => ?_, fun _ => ⟨rfl, rfl, Or.inl rfl, rfl⟩⟩
    simp only [List.flatten_nil, List.length_nil] at hge
    omega
  | cons chunk rest =>
    have hrun : runPasswordPhases pw pwInit (chunk :: rest) =
        runPasswordPhases pw
          (state_beginReadingConnectPassword_onClientData pw pwInit chunk).1 rest := rfl
    have hflat : (chunk :: rest).flatten = chunk ++ rest.flatten := by simp
    by_cases hc : pw.length ≤ chunk.length
    · have htake : (chunk :: rest).flatten.take pw.length = chunk.take pw.length := by
        rw [hflat]
        exact take_append_le chunk _ pw.length hc
      have hstate : (state_beginReadingConnectPassword_onClientData pw pwInit chunk).1 =
          checkConnectPassword pw pwInit (chunk.take pw.length) := by
        unfold state_beginReadingConnectPassword_onClientData
        simp [hc]
      have hlen : pw.length ≤ (chunk :: rest).flatten.length := by
        rw [hflat]
        simp only [List.length_append]
        omega
      rw [hrun, hstate]
      by_cases hm : chunk.take pw.length = pw
      · have hcheck : checkConnectPassword pw pwInit (chunk.take pw.length) =
            ⟨.readingHeader, [], true, 1⟩ := by
          unfold checkConnectPassword pwInit
          simp [hm]
        rw [hcheck, runPasswordPhases_stopped pw _ rest (Or.inl rfl)]
        refine ⟨fun _ => ⟨rfl, fun _ => ⟨rfl, rfl⟩, fun hne => ?_⟩, fun hlt => ?_⟩
        · exact absurd (htake.trans hm) hne
        · omega
      · have hcheck : checkConnectPassword pw pwInit (chunk.take pw.length) =
            ⟨.disconnected, [], false, 1⟩ := by
          unfold checkConnectPassword pwInit
          simp [hm]
        rw [hcheck, runPasswordPhases_stopped pw _ rest (Or.inr rfl)]
        refine ⟨fun _ => ⟨rfl, fun heq => ?_, fun _ => rfl⟩, fun hlt => ?_⟩
        · exact absurd (htake.symm.trans heq) hm
        · omega
    · have hstate : (state_beginReadingConnectPassword_onClientData pw pwInit chunk).1 =
          ⟨.stillReading, chunk, false, 0⟩ := by
        unfold state_beginReadingConnectPassword_onClientData
        simp [hc, pwInit]
      rw [hrun, hstate, hflat]
      have hs := runStillSpec pw rest chunk (by omega)
      exact ⟨fun h => hs.1 h,
        fun h => ⟨(hs.2 h).1, (hs.2 h).2.1, Or.inr (hs.2 h).2.2.1, (hs.2 h).2.2.2⟩⟩

/-- C5 witness: the password `secret` delivered in 1-byte fragments is
compared exactly once, matches, and stops the timer. -/
theorem c5_connect_password_chunking_witness :
    (runPasswordPhases secretPw pwInit secretFragments).comparisons = 1 ∧
    (runPasswordPhases secretPw pwInit secretFragments).phase = .readingHeader ∧
    (runPasswordPhases secretPw pwInit secretFragments).timerStopped = true := by
  have h := (c5_connect_password_chunking secretPw secretFragments (by decide)).1 (by decide)
  exact ⟨h.1, (h.2.1 (by decide)).1, (h.2.1 (by decide)).2⟩



/-- C1 counterexample: a worker response header block with no `Status:` header
makes `processResponseHeader` disconnect the client with an error; nothing —
in particular no 500 error page — is written to the client output pipe. -/
theorem c1_missing_status_counterexample :
    processResponseHeader [] (chars (r"Content-Type: text/html") ++ crlf ++ crlf) [] =
      .disconnectedWith malformedResponseMsg ∧
    (processResponseHeader [] (chars (r"Content-Type: text/html") ++ crlf ++ crlf) []).isWrote
      = false := by
  refine ⟨by decide, by decide⟩

/-- C1 (amended): whenever the buffered response header block contains no
`Status:` header (per the case-sensitive `lookupHeader` scan), the client is
disconnected with the malformed-response error message and no response bytes
are written. -/
theorem c1_missing_status_disconnects (reqHeaders : HdrMap) (headerData rest : Chars)
    (h : (lookupHeader headerData statusName).found = false) :
    processResponseHeader reqHeaders headerData rest =
      .disconnectedWith malformedResponseMsg := by
  unfold processResponseHeader
  simp [h]

/-- C1 witness: the amended theorem applied to a concrete header block. -/
theorem c1_missing_status_disconnects_witness :
    (lookupHeader (chars (r"X: y") ++ crlf ++ crlf) statusName).found = false ∧
    processResponseHeader [] (chars (r"X: y") ++ crlf ++ crlf) [] =
      .disconnectedWith malformedResponseMsg :=
  ⟨by decide, c1_missing_status_disconnects [] _ [] (by decide)⟩

/- ***** C6 supporting lemmas ***** -/
theorem take_ge_length {α : Type} (l : List α) (n : Nat) (h : l.length ≤ n) :
    l.take n = l := by
  induction l generalizing n with
  | nil => simp
  | cons x xs ih =>
    cases n with
    | zero => simp at h
    | succ m =>
      simp only [List.take_succ_cons]
      rw [ih m (by simpa using h)]

theorem isPrefixOf_append_self (p rest : Chars) : p.isPrefixOf (p ++ rest) = true := by
  induction p with
  | nil => simp [List.isPrefixOf]
  | cons x xs ih => simp [List.isPrefixOf, ih]

theorem findFromAux_self (p rest : Chars) (hp : p ≠ []) (idx : Nat) :
    findFromAux (p ++ rest) p idx = some idx := by
  cases p with
  | nil => exact absurd rfl hp
  | cons c cs =>
    show findFromAux (c :: (cs ++ rest)) (c :: cs) idx = some idx
    rw [findFromAux]
    rw [if_pos]
    exact isPrefixOf_append_self (c :: cs) rest

theorem strFind_self (p rest : Chars) (hp : p ≠ []) :
    strFind (p ++ rest) p 0 = some 0 := by
  unfold strFind
  rw [List.drop_zero]
  exact findFromAux_self p rest hp 0

theorem countLeadingSpaces_no_space (v rest : Chars) (hv : v ≠ [])
    (hc : v.head? ≠ some ' ') :
    countLeadingSpaces (v ++ rest) = 0 := by
  cases v with
  | nil => exact absurd rfl hv
  | cons c cs =>
    have : ¬(c = ' ') := fun h => hc (by simp [h])
    simp [countLeadingSpaces, this]

theorem takeUntilChar_append (c : Char) (v rest : Chars) (hv : c ∉ v) :
    takeUntilChar c (v ++ c :: rest) = some v := by
  induction v with
  | nil => simp [takeUntilChar]
  | cons x xs ih =>
    have hx : ¬(x = c) := fun h => hv (by simp [h])
    have hxs : c ∉ xs := fun h => hv (List.mem_cons_of_mem _ h)
    simp [takeUntilChar, hx, ih hxs]

theorem lookupHeaderAux_succ (fuel : Nat) (hd name : Chars) (st : Nat) :
    lookupHeaderAux (fuel + 1) hd name st =
      if st < hd.length then
        match strFind hd name st with
        | none => emptyRHHeader
        | some pos =>
          if (pos = 0 ∨ hd[pos - 1]? = some '\n') ∧
              pos + name.length < hd.length ∧
              hd[pos + name.length]? = some ':' then
            let ex := extractHeaderValue (hd.drop (pos + name.length + 1))
            ⟨true, pos, pos + name.length + 1 + ex.1, ex.2⟩
          else
            lookupHeaderAux fuel hd name (pos + name.length + 1)
      else emptyRHHeader := rfl

/-- Looking up `Status` in a header block that starts with `"Status: "`. -/
theorem lookupHeader_statusColon (s : Chars) :
    lookupHeader (statusColonSpace ++ s) statusName =
      ⟨true, 0, 7 + (extractHeaderValue (' ' :: s)).1, (extractHeaderValue (' ' :: s)).2⟩ := by
  have hsn : statusName = ['S', 't', 'a', 't', 'u', 's'] := by decide
  have hshape : statusColonSpace ++ s = statusName ++ (':' :: ' ' :: s) := by
    simp [statusColonSpace]
  have hlen6 : statusName.length = 6 := by decide
  unfold lookupHeader
  rw [lookupHeaderAux_succ]
  rw [if_pos (by
    simp only [hshape, List.length_append, hlen6, List.length_cons]
    omega)]
  rw [hshape, strFind_self statusName (':' :: ' ' :: s) (by decide)]
  dsimp only
  have hcolon : (statusName ++ (':' :: ' ' :: s))[0 + statusName.length]? = some ':' := by
    rw [hsn]
    rfl
  rw [if_pos (And.intro (Or.inl rfl) (And.intro (by
      simp only [List.length_append, List.length_cons]
      omega) hcolon))]
  have hdrop : (statusName ++ (':' :: ' ' :: s)).drop (0 + statusName.length + 1) =
      ' ' :: s := by
    rw [hsn]
    rfl
  rw [hdrop, hlen6]

theorem head?_append_left {α : Type} (l r : List α) (h : l ≠ []) :
    (l ++ r).head? = l.head? := by
  cases l with
  | nil => exact absurd rfl h
  | cons x xs => rfl

theorem containsChar_eq_false (v : Chars) (c : Char) (h : c ∉ v) :
    containsChar v c = false := by
  induction v with
  | nil => rfl
  | cons x xs ih =>
    have hx : ¬(x = c) := fun he => h (by simp [he])
    have hxs : c ∉ xs := fun he => h (List.mem_cons_of_mem _ he)
    simp [containsChar, hx, ih hxs]

/-- Looking up `Status` in a block `"Status: " ++ v ++ "\r\n" ++ tail` whose
value does not start with a space and contains no `'\r'`. -/
theorem lookupHeader_statusFirst (v tail : Chars) (hv : v ≠ [])
    (hhead : v.head? ≠ some ' ') (hcr : '\r' ∉ v) :
    lookupHeader (statusColonSpace ++ v ++ crlf ++ tail) statusName =
      ⟨true, 0, 8, v⟩ := by
  have hassoc : statusColonSpace ++ v ++ crlf ++ tail =
      statusColonSpace ++ (v ++ crlf ++ tail) := by
    simp [List.append_assoc]
  rw [hassoc, lookupHeader_statusColon]
  have hvshape : v ++ crlf ++ tail = v ++ '\r' :: '\n' :: tail := by
    simp [crlf]
  have hex : extractHeaderValue (' ' :: (v ++ crlf ++ tail)) = (1, v) := by
    unfold extractHeaderValue
    have h0 : countLeadingSpaces (v ++ (crlf ++ tail)) = 0 :=
      countLeadingSpaces_no_space v (crlf ++ tail) hv hhead
    have hk : countLeadingSpaces (' ' :: (v ++ crlf ++ tail)) = 1 := by
      simp [countLeadingSpaces, h0]
    simp only [hk]
    have hdrop : (' ' :: (v ++ crlf ++ tail)).drop 1 = v ++ '\r' :: '\n' :: tail := by
      rw [List.drop_one, List.tail_cons, hvshape]
    rw [hdrop, takeUntilChar_append '\r' v ('\n' :: tail) hcr]
  rw [hex]
  rfl

theorem natToCharsAux_digits (fuel : Nat) :
    ∀ n c, c ∈ natToCharsAux fuel n → ∃ d, d < 10 ∧ c = digitChar d := by
  induction fuel with
  | zero =>
    intro n c h
    simp [natToCharsAux] at h
  | succ f ih =>
    intro n c h
    by_cases hn : n < 10
    · simp [natToCharsAux, hn] at h
      exact ⟨n, hn, h⟩
    · simp only [natToCharsAux, hn, if_false, List.mem_append, List.mem_singleton] at h
      rcases h with h | h
      · exact ih _ _ h
      · exact ⟨n % 10, Nat.mod_lt _ (by norm_num), h⟩

theorem digitChar_ne : ∀ d, d < 10 → digitChar d ≠ '\r' ∧ digitChar d ≠ ' ' := by decide

theorem natToChars_not_cr (n : Nat) (c : Char) (h : c ∈ natToChars n) : c ≠ '\r' := by
  obtain ⟨d, hd, rfl⟩ := natToCharsAux_digits _ _ _ h
  exact (digitChar_ne d hd).1

theorem natToChars_not_space (n : Nat) (c : Char) (h : c ∈ natToChars n) : c ≠ ' ' := by
  obtain ⟨d, hd, rfl⟩ := natToCharsAux_digits _ _ _ h
  exact (digitChar_ne d hd).2

theorem natToChars_ne_nil (n : Nat) : natToChars n ≠ [] := by
  unfold natToChars
  by_cases hn : n < 10 <;> simp [natToCharsAux, hn]

theorem reasonFor_ne_nil (code : Nat) : reasonFor code ≠ [] := by
  by_cases h2 : code = 200
  · subst h2
    decide
  · have hg : getStatusCodeAndReasonPhrase code = none := by
      simp [getStatusCodeAndReasonPhrase, h2]
    unfold reasonFor
    rw [hg]
    intro h
    simp at h

theorem reasonFor_head_not_space (code : Nat) : (reasonFor code).head? ≠ some ' ' := by
  by_cases h2 : code = 200
  · subst h2
    decide
  · have hg : getStatusCodeAndReasonPhrase code = none := by
      simp [getStatusCodeAndReasonPhrase, h2]
    unfold reasonFor
    rw [hg]
    rw [List.append_assoc, head?_append_left _ _ (natToChars_ne_nil code)]
    intro h
    cases hnc : natToChars code with
    | nil => exact natToChars_ne_nil code hnc
    | cons x xs =>
      rw [hnc] at h
      simp at h
      exact natToChars_not_space code ' '
        (by rw [hnc, ← h]; exact List.mem_cons_self _ _) rfl

theorem reasonFor_no_cr (code : Nat) : '\r' ∉ reasonFor code := by
  by_cases h2 : code = 200
  · subst h2
    decide
  · have hg : getStatusCodeAndReasonPhrase code = none := by
      simp [getStatusCodeAndReasonPhrase, h2]
    unfold reasonFor
    rw [hg]
    intro h
    rw [List.append_assoc, List.mem_append] at h
    rcases h with h | h
    · exact natToChars_not_cr code '\r' h rfl
    · revert h
      decide

theorem stringToIntAux_le (s : Chars) :
    ∀ acc, stringToIntAux s acc ≤ acc * 10 ^ s.length + (10 ^ s.length - 1) := by
  induction s with
  | nil =>
    intro acc
    simp [stringToIntAux]
  | cons c cs ih =>
    intro acc
    have hP : 0 < 10 ^ cs.length := Nat.pow_pos (by norm_num)
    have hpow : 10 ^ (c :: cs).length = 10 ^ cs.length * 10 := by
      simp [List.length_cons, Nat.pow_succ]
    by_cases hd : c.isDigit
    · simp only [stringToIntAux, hd, if_true]
      have hdig : c.toNat - 48 ≤ 9 := by
        have h9 : c.val ≤ '9'.val := by
          simp [Char.isDigit] at hd
          exact hd.2
        have : c.toNat ≤ 57 := h9
        omega
      have h1 := ih (acc * 10 + (c.toNat - 48))
      have e1 : (acc * 10 + (c.toNat - 48)) * 10 ^ cs.length =
          acc * (10 ^ cs.length * 10) + (c.toNat - 48) * 10 ^ cs.length := by ring
      have e2 : (c.toNat - 48) * 10 ^ cs.length ≤ 9 * 10 ^ cs.length :=
        Nat.mul_le_mul_right _ hdig
      rw [hpow]
      omega
    · simp only [stringToIntAux]
      rw [if_neg hd]
      have : acc ≤ acc * (10 ^ cs.length * 10) := by
        have h10 : 1 ≤ 10 ^ cs.length * 10 := by omega
        calc acc = acc * 1 := by ring
          _ ≤ acc * (10 ^ cs.length * 10) := Nat.mul_le_mul_left _ h10
      rw [hpow]
      omega

theorem stringToInt_lt (s : Chars) : stringToInt s < 10 ^ s.length := by
  have h := stringToIntAux_le s 0
  have hP : 0 < 10 ^ s.length := Nat.pow_pos (by norm_num)
  unfold stringToInt
  omega

theorem natToCharsAux_length (fuel : Nat) :
    ∀ n k, n < 10 ^ k → 0 < k → n < fuel → (natToCharsAux fuel n).length ≤ k := by
  induction fuel with
  | zero =>
    intro n k _ _ hf
    omega
  | succ f ih =>
    intro n k hn hk hf
    by_cases h10 : n < 10
    · simp [natToCharsAux, h10]
      omega
    · simp only [natToCharsAux, h10, if_false, List.length_append, List.length_cons,
        List.length_nil]
      have hk2 : 2 ≤ k := by
        by_contra hlt
        have hk1 : k = 1 := by omega
        rw [hk1] at hn
        simp at hn
        omega
      have hsplit : 10 ^ k = 10 ^ (k - 1) * 10 := by
        rw [← Nat.pow_succ]
        congr 1
        omega
      rw [hsplit] at hn
      have hdiv : n / 10 < 10 ^ (k - 1) := by omega
      have hf2 : n / 10 < f := by omega
      have := ih (n / 10) (k - 1) hdiv (by omega) hf2
      omega

theorem natToChars_length_le (n k : Nat) (hn : n < 10 ^ k) (hk : 0 < k) :
    (natToChars n).length ≤ k :=
  natToCharsAux_length (n + 1) n k hn hk (Nat.lt_succ_self n)

/-- The function `buildNewStatus` never hits the 100-byte truncation for status codes of at
most 68 digits. -/
theorem buildNewStatus_eq (code : Nat) (hlen : (natToChars code).length ≤ 68) :
    buildNewStatus code = statusColonSpace ++ reasonFor code ++ crlf := by
  by_cases h2 : code = 200
  · subst h2
    decide
  · have hg : getStatusCodeAndReasonPhrase code = none := by
      simp [getStatusCodeAndReasonPhrase, h2]
    have h8 : statusColonSpace.length = 8 := by decide
    have h24 : unknownReasonPhrase.length = 24 := by decide
    have e1 : appendData [] 100 statusColonSpace = statusColonSpace := by decide
    have e2 : appendData statusColonSpace 100 (natToChars code) =
        statusColonSpace ++ natToChars code := by
      unfold appendData
      congr 1
      apply take_ge_length
      omega
    have e3 : appendData (statusColonSpace ++ natToChars code) 100 unknownReasonPhrase =
        statusColonSpace ++ natToChars code ++ unknownReasonPhrase := by
      unfold appendData
      congr 1
      apply take_ge_length
      rw [List.length_append]
      omega
    unfold buildNewStatus reasonFor
    rw [hg]
    dsimp only
    rw [e1, e2, e3]
    simp [unknownReasonPhrase, List.append_assoc]

/-- C6: for a response header block starting with a `Status` header whose
value has no space (digits, at most 9 of them), the reason phrase is
synthesized from the status-code table (unknown codes get
`"Unknown Reason-Phrase"`), and with `PASSENGER_PRINT_STATUS_LINE` true (the
default) the client output starts with `"HTTP/1.1 " ++ newStatusValue ++
"\r\n"`, followed by the identity header, the rewritten block and the rest
data. -/
theorem c6_status_line_synthesis (reqHeaders : HdrMap) (v tail rest : Chars)
    (hv : v ≠ []) (hsp : ' ' ∉ v) (hcr : '\r' ∉ v) (hlen : v.length ≤ 9)
    (hopt : getBoolOption reqHeaders passengerPrintStatusLine true = true) :
    processResponseHeader reqHeaders (statusColonSpace ++ v ++ crlf ++ tail) rest =
      .wrote (httpSlashOneOne ++ reasonFor (stringToInt v) ++ crlf ++ xPoweredByHeader ++
        (statusColonSpace ++ reasonFor (stringToInt v) ++ crlf ++ tail) ++ rest) := by
  have hhead : v.head? ≠ some ' ' := by
    cases v with
    | nil => exact absurd rfl hv
    | cons c cs =>
      intro h
      simp at h
      exact hsp (by simp [h])
  have hlook := lookupHeader_statusFirst v tail hv hhead hcr
  have hcontains : containsChar v ' ' = false := containsChar_eq_false v ' ' hsp
  have hcode : stringToInt v < 10 ^ 9 :=
    lt_of_lt_of_le (stringToInt_lt v) (Nat.pow_le_pow_right (by norm_num) hlen)
  have hdlen : (natToChars (stringToInt v)).length ≤ 68 :=
    le_trans (natToChars_length_le _ 9 hcode (by norm_num)) (by norm_num)
  have hbuild := buildNewStatus_eq (stringToInt v) hdlen
  have h8 : statusColonSpace.length = 8 := by decide
  have h2c : crlf.length = 2 := by decide
  have hreplace : replaceSub (statusColonSpace ++ v ++ crlf ++ tail) 0
      (8 + v.length + 2 - 0) (buildNewStatus (stringToInt v)) =
      statusColonSpace ++ reasonFor (stringToInt v) ++ crlf ++ tail := by
    unfold replaceSub
    rw [hbuild]
    have hform : statusColonSpace ++ v ++ crlf ++ tail =
        (statusColonSpace ++ v ++ crlf) ++ tail := by
      simp [List.append_assoc]
    have hl : 0 + (8 + v.length + 2 - 0) = (statusColonSpace ++ v ++ crlf).length := by
      simp only [List.length_append, h8, h2c]
      omega
    rw [hform, hl, List.drop_left]
    simp [List.append_assoc]
  have hlook2 := lookupHeader_statusFirst (reasonFor (stringToInt v)) tail
    (reasonFor_ne_nil _) (reasonFor_head_not_space _) (reasonFor_no_cr _)
  unfold processResponseHeader
  rw [hlook]
  simp only [RHHeader.hsize, hcontains, hopt, Bool.not_false, if_true]
  rw [hreplace]
  rw [hlook2]
  simp [List.append_assoc]

/-- C6 witness: `Status: 200` (no reason phrase) yields the client prefix
`HTTP/1.1 200 OK\r\n` followed by the identity header and the rewritten
`Status: 200 OK` block. -/
theorem c6_status_line_synthesis_witness :
    reasonFor (stringToInt (chars (r"200"))) = chars (r"200 OK") ∧
    processResponseHeader [] (statusColonSpace ++ chars (r"200") ++ crlf ++ crlf) [] =
      .wrote (httpSlashOneOne ++ chars (r"200 OK") ++ crlf ++ xPoweredByHeader ++
        (statusColonSpace ++ chars (r"200 OK") ++ crlf ++ crlf) ++ []) := by
  constructor
  · decide
  · have h := c6_status_line_synthesis [] (chars (r"200")) crlf [] (by decide) (by decide)
      (by decide) (by decide) (by decide)
    rw [h]
    decide

theorem writeErrorResponse_500 (reqHeaders : HdrMap) (message : Chars)
    (e : Option SpawnExceptionData) :
    (writeErrorResponse reqHeaders message e).newState = .writingSimpleResponse ∧
    List.IsInfix status500Line (writeErrorResponse reqHeaders message e).bytes := by
  unfold writeErrorResponse
  refine ⟨rfl, ?_⟩
  dsimp only
  refine ⟨(if getBoolOption reqHeaders passengerPrintStatusLine true then http500Line else []),
    contentLengthLabel ++
      natToChars (if getBoolOption reqHeaders passengerFriendlyErrorPages true then
        renderFriendlyErrorPage message e else undisclosedErrorPage).length ++ crlf ++
      contentTypeLine ++ crlf ++
      (if getBoolOption reqHeaders passengerFriendlyErrorPages true then
        renderFriendlyErrorPage message e else undisclosedErrorPage), ?_⟩
  simp [List.append_assoc]

/-- C7: a pool callback error that is a `SpawnException` moves the client to
`WRITING_SIMPLE_RESPONSE` and writes a 500 response to the client output
pipe; but a pool callback error of any other exception type makes the code
dereference the empty `shared_ptr` produced by `dynamic_pointer_cast` (the
`bad_cast` handler is dead code), so no error page is written. -/
theorem c7_pool_error_handling (reqHeaders : HdrMap) (msg : Chars)
    (sp : SpawnExceptionData) :
    sessionCheckedOut_real reqHeaders (some (.otherExc msg)) = .nullPointerDeref ∧
    (sessionCheckedOut_real reqHeaders (some (.spawnExc sp))).stateOf =
      some .writingSimpleResponse ∧
    List.IsInfix status500Line
      (sessionCheckedOut_real reqHeaders (some (.spawnExc sp))).bytesWritten := by
  refine ⟨rfl, ?_, ?_⟩
  · unfold sessionCheckedOut_real dynamicPointerCastSpawn
    by_cases hp : sp.errorPage.isEmpty <;>
      simp [hp, CheckoutOutcome.stateOf, (writeErrorResponse_500 _ _ _).1]
  · unfold sessionCheckedOut_real dynamicPointerCastSpawn
    by_cases hp : sp.errorPage.isEmpty
    · simp only [hp, if_true, CheckoutOutcome.bytesWritten]
      exact (writeErrorResponse_500 reqHeaders sp.what none).2
    · simp only [hp, if_false, Bool.false_eq_true, CheckoutOutcome.bytesWritten]
      exact (writeErrorResponse_500 reqHeaders sp.errorPage (some sp)).2

theorem bufferBody_eq_flatten (chunks : List Chars) : bufferBody chunks = chunks.flatten := by
  have haux : ∀ (cs : List Chars) (acc : Chars),
      cs.foldl (fun acc c => acc ++ c) acc = acc ++ cs.flatten := by
    intro cs
    induction cs with
    | nil => intro acc; simp
    | cons c rest ih =>
      intro acc
      simp [List.foldl_cons, ih, List.append_assoc]
  unfold bufferBody
  simp [haux]

/-- A completed unbuffered run writes exactly the pending bytes and the
remaining chunks, in order, after what was already written. -/
theorem runUnbuf_done (fuel : Nat) :
    ∀ sched st pending chunks worker w,
      runUnbuf fuel sched st pending chunks worker = .done w →
      w = worker ++ pending ++ chunks.flatten := by
  induction fuel with
  | zero =>
    intro _ _ _ _ _ _ h
    exact absurd h (by simp [runUnbuf])
  | succ f ih =>
    intro sched st pending chunks worker w h
    cases st with
    | false =>
      rw [runUnbuf] at h
      exact ih _ _ _ _ _ _ h
    | true =>
      cases pending with
      | nil =>
        cases chunks with
        | nil =>
          rw [runUnbuf] at h
          simp at h
          simp [← h]
        | cons c cs =>
          rw [runUnbuf] at h
          have := ih _ _ _ _ _ _ h
          simpa [List.append_assoc] using this
      | cons p ps =>
        rw [runUnbuf] at h
        rcases hw : writeApp sched (p :: ps) with ⟨sched', r⟩
        rw [hw] at h
        cases r with
        | none =>
          have := ih _ _ _ _ _ _ h
          exact this
        | some k =>
          have hres := ih _ _ _ _ _ _ h
          have e : (worker ++ (p :: ps).take k) ++ (p :: ps).drop k =
              worker ++ (p :: ps) := by
            rw [List.append_assoc, List.take_append_drop]
          rw [hres, e]

theorem runBuf_false_ne_done (fuel : Nat) (sched : List (Option Nat))
    (pending : Chars) (deliveries : List Chars) (worker w : Chars) :
    runBuf fuel sched false pending deliveries worker ≠ .done w := by
  cases fuel <;> simp [runBuf]

/-- A completed buffered run writes exactly the pending bytes and the
remaining pipe deliveries, in order, after what was already written. -/
theorem runBuf_done (fuel : Nat) :
    ∀ sched st pending deliveries worker w,
      runBuf fuel sched st pending deliveries worker = .done w →
      w = worker ++ pending ++ deliveries.flatten := by
  induction fuel with
  | zero =>
    intro _ _ _ _ _ _ h
    exact absurd h (by simp [runBuf])
  | succ f ih =>
    intro sched st pending deliveries worker w h
    cases st with
    | false =>
      exact absurd h (runBuf_false_ne_done _ _ _ _ _ _)
    | true =>
      cases pending with
      | nil =>
        cases deliveries with
        | nil =>
          rw [runBuf] at h
          simp at h
          simp [← h]
        | cons d ds =>
          rw [runBuf] at h
          have := ih _ _ _ _ _ _ h
          simpa [List.append_assoc] using this
      | cons p ps =>
        rw [runBuf] at h
        rcases hw : writeApp sched (p :: ps) with ⟨sched', r⟩
        rw [hw] at h
        cases r with
        | none =>
          exact absurd h (runBuf_false_ne_done f sched' (p :: ps) deliveries worker w)
        | some k =>
          have hres := ih _ _ _ _ _ _ h
          have e : (worker ++ (p :: ps).take k) ++ (p :: ps).drop k =
              worker ++ (p :: ps) := by
            rw [List.append_assoc, List.take_append_drop]
          rw [hres, e]

/-- Completed forwarding runs of the two modes agree: both write exactly the
concatenation of the body bytes. -/
theorem forwarding_modes_agree (fuel1 fuel2 : Nat)
    (sched1 sched2 : List (Option Nat)) (chunks deliveries : List Chars)
    (w1 w2 : Chars) (hdel : deliveries.flatten = bufferBody chunks)
    (h1 : runUnbuf fuel1 sched1 true [] chunks [] = .done w1)
    (h2 : runBuf fuel2 sched2 true [] deliveries [] = .done w2) :
    w1 = chunks.flatten ∧ w2 = chunks.flatten := by
  have e1 := runUnbuf_done fuel1 _ _ _ _ _ _ h1
  have e2 := runBuf_done fuel2 _ _ _ _ _ _ h2
  rw [bufferBody_eq_flatten] at hdel
  constructor
  · simpa using e1
  · rw [e2, hdel]
    simp

/-- C2: on the same body (`"ab"`) and the same worker-socket acceptance
schedule (accept one byte, then `EAGAIN` once, then accept anything), the
unbuffered path delivers the whole body to the worker, while the buffered
path — after buffering the identical bytes — hits the reachable assertion
failure in `state_forwardingBodyToApp_onAppOutputWritable` with only a strict
prefix written: the two worker-visible byte streams differ. -/
theorem c2_buffering_divergence :
    bufferBody [['a', 'b']] = ['a', 'b'] ∧
    runUnbuf 20 [some 1, none, some 99] true [] [['a', 'b']] [] = .done ['a', 'b'] ∧
    runBuf 20 [some 1, none, some 99] true [] [['a', 'b']] [] = .assertFailed := by
  refine ⟨by decide, by decide, by decide⟩

/-- C9: the claimed at-every-time invariant is violated by the program.  The
cited paths (`writeToClientOutputPipe`, `state_bufferingRequestBody_onClientData`
and the commit callbacks) do the stop/count bookkeeping, but
`writeErrorResponse` writes the 500 header and page body directly to
`clientOutputPipe`, ignoring the `write` return value, with no
`backgroundOperations` increment and no reader bookkeeping: one spilling
error-page write from the initial state reaches a state whose client-output
pipe is committing to disk while `backgroundOperations = 0`, refuting
`committing → backgroundOperations ≥ 1`; the commit callback then decrements
the unsigned counter from 0, wrapping it to `2 ^ 32 - 1` instead of restoring
it. -/
theorem c9_error_page_write_violates_invariant :
    pipeStep pipeInit (.errorPageWrite false) =
      some ⟨true, false, true, true, 0⟩ ∧
    PipeReachable ⟨true, false, true, true, 0⟩ ∧
    ((⟨true, false, true, true, 0⟩ : PipeState).outCommitting = true ∧
      ¬ 1 ≤ (⟨true, false, true, true, 0⟩ : PipeState).backgroundOperations) ∧
    pipeStep ⟨true, false, true, true, 0⟩ .outCommit =
      some ⟨false, false, true, true, 2 ^ 32 - 1⟩ := by
  refine ⟨by decide, ?_, by decide, by decide⟩
  exact PipeReachable.step (.errorPageWrite false) PipeReachable.init (by decide)
